import Mathlib

/-!
# Verification of the social_media_agent generation pipeline

The repository has a Next.js frontend (`frontend/src/app/page.tsx`, given here as
`src/unnamed/part_000`) and a FastAPI backend that is referenced by the README and the
spec but whose source is not included.  The frontend handlers (`handlePlatformToggle`,
`handleGenerate`, the `Home` component's initial state) are embedded directly from the
source.  The backend components — the transcript cache, the transcript resolution step
and the generation orchestrator's event stream — are modelled from the spec (sections
3, 4.1, 4.2, 6 and 7), as indicated on each definition.
-/

namespace SocialMediaAgent

/-- The stream event sum type.  Modelled from the spec: "StreamEvent: a tagged variant
over: Status{stage, platform?, index?}, Transcript{preview, length}, Post{platform,
content}, Error{message}, Done{}" (§3), matching the five SSE event kinds of §6. -/
inductive StreamEvent where
  | status (stage : String) (platform : Option String) (index : Option Nat)
  | transcript (preview : String) (length : Nat)
  | post (platform : String) (content : String)
  | error (message : String)
  | done
deriving DecidableEq

/-- `true` exactly on `StreamEvent.post` events. -/
def isPost : StreamEvent → Bool
  | .post _ _ => true
  | _ => false

/-- `true` exactly on `StreamEvent.transcript` events. -/
def isTranscriptEvent : StreamEvent → Bool
  | .transcript _ _ => true
  | _ => false

/-- `true` exactly on `StreamEvent.error` events. -/
def isErrorEvent : StreamEvent → Bool
  | .error _ => true
  | _ => false

/-- A cache entry.  Modelled from the spec: "CacheEntry: { transcript: string,
stored_at: timestamp, ttl: duration }. Valid while `now - stored_at < ttl`" (§3). -/
structure CacheEntry where
  transcript : String
  stored_at : Nat
  ttl : Nat
deriving DecidableEq

/-- A cache key is a (video_id, language) pair (§3). -/
abbrev CacheKey := String × String

/-- The transcript cache, an in-memory store keyed by (video id, language).  Modelled
from the spec (§4.1); represented as an association list whose head entry for a key is
the live one. -/
abbrev Cache := List (CacheKey × CacheEntry)

/-- Modelled from the spec: "`get(key) -> transcript | absent` ... `get` returns absent
if no entry exists or the stored entry's TTL has elapsed (expired entries are treated
as absent, not physically purged on every read)" (§4.1). -/
def cacheGet (c : Cache) (key : CacheKey) (now : Nat) : Option String :=
  match c.find? (fun e => decide (e.1 = key)) with
  | some e => if now - e.2.stored_at < e.2.ttl then some e.2.transcript else none
  | none => none

/-- Modelled from the spec: "`put(key, transcript)`" with "at most one live CacheEntry
per CacheKey at any time" and "a refresh request discards and replaces, never mutates
in place" (§3, §4.1): the prior entry for the key is discarded and a fresh immutable
entry is stored. -/
def cachePut (c : Cache) (key : CacheKey) (t : String) (now ttl : Nat) : Cache :=
  (key, ⟨t, now, ttl⟩) :: c.filter (fun e => !decide (e.1 = key))

/-- Modelled from the spec: "`invalidate(key)`" (§4.1). -/
def cacheInvalidate (c : Cache) (key : CacheKey) : Cache :=
  c.filter (fun e => !decide (e.1 = key))

/-- Outcome of the transcript-resolution step: the resolved transcript (if any), the
cache state afterwards, and how many calls were issued to the Transcript Provider. -/
structure ResolveResult where
  transcript : Option String
  cache : Cache
  providerCalls : Nat
deriving DecidableEq

/-- Modelled from the spec: "Resolve transcript: Cache.get(video_id, language); on
absent (or refresh requested), call Transcript Provider; on success, Cache.put; on
failure ... this is a fatal precondition" (§4.2 step 2), with "`refresh=true` on a
request is equivalent to calling `invalidate` before `get`" and "No negative caching:
a failed fetch is never stored" (§4.1).  The external provider is modelled as its
result: `some t` when the fetch succeeds with transcript `t`, `none` when it fails. -/
def resolveTranscript (c : Cache) (provider : Option String) (key : CacheKey)
    (refresh : Bool) (now ttl : Nat) : ResolveResult :=
  let c0 := if refresh then cacheInvalidate c key else c
  match cacheGet c0 key now with
  | some t => ⟨some t, c0, 0⟩
  | none =>
    match provider with
    | some t => ⟨some t, cachePut c0 key t now ttl, 1⟩
    | none => ⟨none, c0, 1⟩

/-- A generation request.  Modelled from the spec: "GenerationRequest: { video_id,
platforms: ordered sequence of distinct platform names (order is significant — it is
the emission order), language, refresh_transcript: bool }" (§3). -/
structure GenerationRequest where
  video_id : String
  platforms : List String
  language : String
  refresh : Bool
deriving DecidableEq

/-- The transcript preview: the first 200 characters of the transcript.  Modelled from
the spec: "Transcript{preview = first 200 characters of transcript, length = total
character count}" (§4.2 step 3). -/
def transcriptPreview (t : String) : String :=
  (t.data.take 200).asString

/-- The per-platform generation loop, over the enumerated (index, platform) list.
Modelled from the spec: "For each platform in request order (index = 0-based
position): emit Status{stage=\x7bgenerating\x7d, platform, index}; invoke Content
Generator(transcript, platform, language); on success emit Post{platform, content}; on
failure emit Error{message} scoped to that platform and continue to the next platform
(non-fatal)" (§4.2 step 4).  `g` is the Content Generator with transcript and language
already applied: `some content` on success, `none` on failure. -/
def platformEvents (g : String → Option String) : List (Nat × String) → List StreamEvent
  | [] => []
  | (i, p) :: rest =>
    StreamEvent.status "generating" (some p) (some i) ::
    (match g p with
     | some content => StreamEvent.post p content
     | none => StreamEvent.error ("Generation failed for platform " ++ p)) ::
    platformEvents g rest

/-- The orchestrator's event sequence, given the outcome `tr` of transcript resolution.
Modelled from the spec (§4.2 steps 1-5): Status(starting); on a failed resolution a
single fatal Error and no Done; otherwise Status(transcript_ready), the Transcript
event, the per-platform loop, Status(done) and Done. -/
def runEvents (tr : Option String) (gen : String → String → String → Option String)
    (req : GenerationRequest) : List StreamEvent :=
  StreamEvent.status "starting" none none ::
  match tr with
  | none => [StreamEvent.error "Transcript unavailable"]
  | some t =>
    StreamEvent.status "transcript_ready" none none ::
    StreamEvent.transcript (transcriptPreview t) t.length ::
    (platformEvents (fun p => gen t p req.language) req.platforms.enum ++
      [StreamEvent.status "done" none none, StreamEvent.done])

/-- The whole pipeline for one request: resolve the transcript through the cache, then
emit the event sequence.  Modelled from the spec (§4.2); returns the events, the cache
state afterwards and the number of Transcript Provider calls issued. -/
def orchestrate (c : Cache) (provider : Option String)
    (gen : String → String → String → Option String) (req : GenerationRequest)
    (now ttl : Nat) : List StreamEvent × Cache × Nat :=
  let r := resolveTranscript c provider (req.video_id, req.language) req.refresh now ttl
  (runEvents r.transcript gen req, r.cache, r.providerCalls)

/-- Request-parameter defaulting.  Modelled from the spec: "`platforms` (ordered list,
default = [\x7bLinkedIn\x7d,\x7bInstagram\x7d] if absent), `language` (default \x7ben\x7d),
`refresh` (bool, default false)" (§6); an absent parameter is `none`. -/
def parseRequest (video_id : String) (platforms : Option (List String))
    (language : Option String) (refresh : Option Bool) : GenerationRequest :=
  { video_id := video_id
    platforms := platforms.getD ["LinkedIn", "Instagram"]
    language := language.getD "en"
    refresh := refresh.getD false }

/-! ## Frontend definitions, embedded from `src/unnamed/part_000` -/

/-- Initial `selectedPlatforms` state of the `Home` component (part_000 line 18). -/
def initialSelectedPlatforms : List String := ["LinkedIn", "Instagram"]

/-- Initial `language` state of the `Home` component (part_000 line 19). -/
def initialLanguage : String := "en"

/-- The available platform buttons (part_000 line 31). -/
def availablePlatforms : List String :=
  ["LinkedIn", "Instagram", "Twitter", "Facebook", "TikTok"]

/-- The state-updater passed to `setSelectedPlatforms` by `handlePlatformToggle`
(part_000 lines 33-39): remove the platform if present, otherwise append it. -/
def handlePlatformToggle (platform : String) (prev : List String) : List String :=
  if prev.contains platform then prev.filter (fun p => p ≠ platform)
  else prev ++ [platform]

/-- JavaScript's `String.prototype.trim`: strip leading and trailing whitespace. -/
def strTrim (s : String) : String :=
  ((s.data.dropWhile Char.isWhitespace).reverse.dropWhile Char.isWhitespace).reverse.asString

/-- The validation prologue of `handleGenerate` (part_000 lines 41-64): an empty
(after trim) video url or an empty platform selection sets an error message and
returns before any stream is opened; otherwise the stream request is built from the
trimmed url, the selected platforms and the language (lines 59-64). -/
def handleGenerate (videoUrl : String) (selectedPlatforms : List String)
    (language : String) : Except String (String × List String × String) :=
  if strTrim videoUrl = "" then .error "Please enter a YouTube video URL or ID"
  else if selectedPlatforms = [] then .error "Please select at least one platform"
  else .ok (strTrim videoUrl, selectedPlatforms, language)

/-! ## Helper lemmas -/

theorem strTrim_of_whitespace (s : String) (h : ∀ c ∈ s.data, c.isWhitespace) :
    strTrim s = "" := by
  unfold strTrim
  rw [List.dropWhile_eq_nil_iff.mpr h]
  rfl

theorem find?_cachePut_self (c : Cache) (key : CacheKey) (t : String) (now ttl : Nat) :
    (cachePut c key t now ttl).find? (fun e => decide (e.1 = key))
      = some (key, ⟨t, now, ttl⟩) := by
  unfold cachePut
  exact List.find?_cons_of_pos _ (by simp)

theorem cacheGet_cachePut_self (c : Cache) (key : CacheKey) (t : String)
    (s ttl now : Nat) :
    cacheGet (cachePut c key t s ttl) key now
      = if now - s < ttl then some t else none := by
  unfold cacheGet
  rw [find?_cachePut_self]

theorem find?_filter_ne (c : Cache) (key key2 : CacheKey) (hne : key2 ≠ key) :
    (c.filter (fun e => !decide (e.1 = key))).find? (fun e => decide (e.1 = key2))
      = c.find? (fun e => decide (e.1 = key2)) := by
  induction c with
  | nil => rfl
  | cons a l ih =>
    by_cases ha : a.1 = key
    · rw [List.filter_cons_of_neg (by simp [ha]), ih,
        List.find?_cons_of_neg _ (by simp [ha]; exact fun hk => hne hk.symm)]
    · rw [List.filter_cons_of_pos (by simp [ha])]
      by_cases hk : a.1 = key2
      · rw [List.find?_cons_of_pos _ (by simp [hk]),
          List.find?_cons_of_pos _ (by simp [hk])]
      · rw [List.find?_cons_of_neg _ (by simp [hk]),
          List.find?_cons_of_neg _ (by simp [hk]), ih]

theorem find?_cacheInvalidate_self (c : Cache) (key : CacheKey) :
    (cacheInvalidate c key).find? (fun e => decide (e.1 = key)) = none := by
  unfold cacheInvalidate
  rw [List.find?_eq_none]
  intro a ha
  have h2 := (List.mem_filter.mp ha).2
  simp at h2 ⊢
  exact h2

theorem cacheGet_cacheInvalidate_self (c : Cache) (key : CacheKey) (now : Nat) :
    cacheGet (cacheInvalidate c key) key now = none := by
  unfold cacheGet
  rw [find?_cacheInvalidate_self]

theorem platformEvents_shape (g : String → Option String) (l : List (Nat × String)) :
    ∀ e ∈ platformEvents g l, isTranscriptEvent e = false ∧ e ≠ StreamEvent.done := by
  induction l with
  | nil =>
    intro e he
    simp [platformEvents] at he
  | cons hd tl ih =>
    obtain ⟨i, p⟩ := hd
    intro e he
    cases hg : g p with
    | some content =>
      simp only [platformEvents, hg, List.mem_cons] at he
      rcases he with rfl | rfl | hrest
      · exact ⟨rfl, by simp⟩
      · exact ⟨rfl, by simp⟩
      · exact ih e hrest
    | none =>
      simp only [platformEvents, hg, List.mem_cons] at he
      rcases he with rfl | rfl | hrest
      · exact ⟨rfl, by simp⟩
      · exact ⟨rfl, by simp⟩
      · exact ih e hrest

theorem platformEvents_filter_transcript (g : String → Option String)
    (l : List (Nat × String)) :
    (platformEvents g l).filter isTranscriptEvent = [] := by
  rw [List.filter_eq_nil_iff]
  intro a ha
  simp [(platformEvents_shape g l a ha).1]

theorem platformEvents_countP_transcript (g : String → Option String)
    (l : List (Nat × String)) :
    (platformEvents g l).countP isTranscriptEvent = 0 := by
  rw [List.countP_eq_zero]
  intro a ha
  simp [(platformEvents_shape g l a ha).1]

theorem platformEvents_all_not_transcript (g : String → Option String)
    (l : List (Nat × String)) :
    (platformEvents g l).all (fun e => !isTranscriptEvent e) = true := by
  rw [List.all_eq_true]
  intro a ha
  simp [(platformEvents_shape g l a ha).1]

theorem platformEvents_all_success (g : String → Option String) (cf : String → String)
    (l : List (Nat × String)) (h : ∀ ip ∈ l, g ip.2 = some (cf ip.2)) :
    platformEvents g l = l.flatMap (fun ip =>
      [StreamEvent.status "generating" (some ip.2) (some ip.1),
       StreamEvent.post ip.2 (cf ip.2)]) := by
  induction l with
  | nil => rfl
  | cons hd tl ih =>
    obtain ⟨i, p⟩ := hd
    have hg : g p = some (cf p) := h (i, p) (by simp)
    have ih2 := ih (fun ip hip => h ip (List.mem_cons_of_mem _ hip))
    simp [platformEvents, hg, ih2]

theorem snd_mem_of_mem_enum (l : List String) (ip : Nat × String) (h : ip ∈ l.enum) :
    ip.2 ∈ l :=
  List.getElem?_mem (List.mem_enum_iff_getElem?.mp h)

/-- Every Transcript event strictly precedes every Post event: at some cut point k,
no Post occurs before k and no Transcript occurs at or after k. -/
def transcriptBeforePosts (es : List StreamEvent) : Prop :=
  ∃ k, (es.take k).all (fun e => !isPost e) = true ∧
    (es.drop k).all (fun e => !isTranscriptEvent e) = true

/-- Done never occurs at a non-final position of the sequence. -/
def doneOnlyLast (es : List StreamEvent) : Prop :=
  ∀ e ∈ es.dropLast, e ≠ StreamEvent.done

/-! ## Claims about the transcript cache -/

/-- C5 counterexample: with an empty cache and a failing provider, two consecutive
non-refresh reads for the same (video_id, language) pair, both within the TTL window,
issue two provider calls, because a failed fetch is never stored (no negative
caching). -/
theorem cache_read_idempotence_cex :
    ¬ ((resolveTranscript ([] : Cache) none ("v", "en") false 0 100).providerCalls +
        (resolveTranscript
          (resolveTranscript ([] : Cache) none ("v", "en") false 0 100).cache
          none ("v", "en") false 0 100).providerCalls ≤ 1) := by decide

/-- C5 (amended): when the provider call succeeds, two consecutive non-refresh reads
for the same (video_id, language) key within the TTL window issue at most one provider
call, and if the first read fetched from the provider then the second is served from
the cache. -/
theorem cache_read_idempotence (c : Cache) (key : CacheKey) (p : Option String)
    (t : String) (n1 n2 ttl : Nat) (hp : p = some t) (hwin : n2 - n1 < ttl) :
    (resolveTranscript c p key false n1 ttl).providerCalls +
      (resolveTranscript (resolveTranscript c p key false n1 ttl).cache
        p key false n2 ttl).providerCalls ≤ 1 ∧
    ((resolveTranscript c p key false n1 ttl).providerCalls = 1 →
      (resolveTranscript (resolveTranscript c p key false n1 ttl).cache
        p key false n2 ttl).providerCalls = 0 ∧
      (resolveTranscript (resolveTranscript c p key false n1 ttl).cache
        p key false n2 ttl).transcript = some t) := by
  subst hp
  cases h1 : cacheGet c key n1 with
  | some t0 =>
    have e1 : resolveTranscript c (some t) key false n1 ttl = ⟨some t0, c, 0⟩ := by
      unfold resolveTranscript
      simp [h1]
    cases h2 : cacheGet c key n2 with
    | some t1 =>
      have e2 : resolveTranscript c (some t) key false n2 ttl = ⟨some t1, c, 0⟩ := by
        unfold resolveTranscript
        simp [h2]
      simp [e1, e2]
    | none =>
      have e2 : resolveTranscript c (some t) key false n2 ttl
          = ⟨some t, cachePut c key t n2 ttl, 1⟩ := by
        unfold resolveTranscript
        simp [h2]
      simp [e1, e2]
  | none =>
    have e1 : resolveTranscript c (some t) key false n1 ttl
        = ⟨some t, cachePut c key t n1 ttl, 1⟩ := by
      unfold resolveTranscript
      simp [h1]
    have h2 : cacheGet (cachePut c key t n1 ttl) key n2 = some t := by
      rw [cacheGet_cachePut_self, if_pos hwin]
    have e2 : resolveTranscript (cachePut c key t n1 ttl) (some t) key false n2 ttl
        = ⟨some t, cachePut c key t n1 ttl, 0⟩ := by
      unfold resolveTranscript
      simp [h2]
    simp [e1, e2]

/-- Witness for C5 at an empty cache with a succeeding provider: the first read
fetches, the second is served from the cache. -/
theorem cache_read_idempotence_witness :
    ((some "tr" : Option String) = some "tr" ∧ 5 - 0 < 60) ∧
    ((resolveTranscript ([] : Cache) (some "tr") ("v", "en") false 0 60).providerCalls +
       (resolveTranscript
         (resolveTranscript ([] : Cache) (some "tr") ("v", "en") false 0 60).cache
         (some "tr") ("v", "en") false 5 60).providerCalls ≤ 1 ∧
     ((resolveTranscript ([] : Cache) (some "tr") ("v", "en") false 0 60).providerCalls = 1 →
       (resolveTranscript
         (resolveTranscript ([] : Cache) (some "tr") ("v", "en") false 0 60).cache
         (some "tr") ("v", "en") false 5 60).providerCalls = 0 ∧
       (resolveTranscript
         (resolveTranscript ([] : Cache) (some "tr") ("v", "en") false 0 60).cache
         (some "tr") ("v", "en") false 5 60).transcript = some "tr")) :=
  ⟨⟨rfl, by decide⟩,
   cache_read_idempotence [] ("v", "en") (some "tr") "tr" 0 5 60 rfl (by decide)⟩

/-- C6: a refresh=true request issues exactly one provider call regardless of the
cache contents (and whether a fresh entry exists), the fetched entry replaces the
prior one for that key while other keys are untouched, and refresh is equivalent to
calling invalidate before the cache get. -/
theorem refresh_forces_fetch (c : Cache) (key key2 : CacheKey) (p : Option String)
    (t : String) (now ttl : Nat) (hne : key2 ≠ key) :
    (resolveTranscript c (some t) key true now ttl).providerCalls = 1 ∧
    (resolveTranscript c (some t) key true now ttl).transcript = some t ∧
    (resolveTranscript c (some t) key true now ttl).cache.find?
        (fun e => decide (e.1 = key)) = some (key, ⟨t, now, ttl⟩) ∧
    (resolveTranscript c (some t) key true now ttl).cache.find?
        (fun e => decide (e.1 = key2)) = c.find? (fun e => decide (e.1 = key2)) ∧
    resolveTranscript c p key true now ttl
      = resolveTranscript (cacheInvalidate c key) p key false now ttl := by
  have hmiss := cacheGet_cacheInvalidate_self c key now
  have e1 : resolveTranscript c (some t) key true now ttl
      = ⟨some t, cachePut (cacheInvalidate c key) key t now ttl, 1⟩ := by
    unfold resolveTranscript
    simp [hmiss]
  refine ⟨by simp [e1], by simp [e1], ?_, ?_, rfl⟩
  · simp only [e1]
    exact find?_cachePut_self (cacheInvalidate c key) key t now ttl
  · simp only [e1]
    unfold cachePut
    rw [List.find?_cons_of_neg _ (by simp; exact fun hk => hne hk.symm)]
    rw [find?_filter_ne (cacheInvalidate c key) key key2 hne]
    unfold cacheInvalidate
    exact find?_filter_ne c key key2 hne

/-- Witness for C6 at a cache holding a fresh entry for the key: the provider is
called anyway and the entry is replaced. -/
theorem refresh_forces_fetch_witness :
    (("w", "en") : CacheKey) ≠ ("v", "en") ∧
    ((resolveTranscript [(("v", "en"), ⟨"old", 9, 100⟩)] (some "new") ("v", "en")
        true 10 60).providerCalls = 1 ∧
     (resolveTranscript [(("v", "en"), ⟨"old", 9, 100⟩)] (some "new") ("v", "en")
        true 10 60).transcript = some "new" ∧
     (resolveTranscript [(("v", "en"), ⟨"old", 9, 100⟩)] (some "new") ("v", "en")
        true 10 60).cache.find? (fun e => decide (e.1 = ("v", "en")))
       = some (("v", "en"), ⟨"new", 10, 60⟩) ∧
     (resolveTranscript [(("v", "en"), ⟨"old", 9, 100⟩)] (some "new") ("v", "en")
        true 10 60).cache.find? (fun e => decide (e.1 = ("w", "en")))
       = [(("v", "en"), ⟨"old", 9, 100⟩)].find? (fun e => decide (e.1 = ("w", "en"))) ∧
     resolveTranscript [(("v", "en"), ⟨"old", 9, 100⟩)] (some "new") ("v", "en")
        true 10 60
       = resolveTranscript
          (cacheInvalidate [(("v", "en"), ⟨"old", 9, 100⟩)] ("v", "en"))
          (some "new") ("v", "en") false 10 60) :=
  ⟨by decide,
   refresh_forces_fetch [(("v", "en"), ⟨"old", 9, 100⟩)] ("v", "en") ("w", "en")
     (some "new") "new" 10 60 (by decide)⟩

/-- C7: a cached entry whose age has reached its TTL is treated as absent by the next
read, which triggers exactly one provider re-fetch; the stale entry is discarded and
replaced by a fresh one (never mutated in place), and other keys are untouched. -/
theorem ttl_expiry_refetch (c : Cache) (key key2 : CacheKey) (t0 t : String)
    (s ttl0 now ttl : Nat)
    (hfind : c.find? (fun e => decide (e.1 = key)) = some (key, ⟨t0, s, ttl0⟩))
    (hexp : ttl0 ≤ now - s) (hne : key2 ≠ key) :
    cacheGet c key now = none ∧
    (resolveTranscript c (some t) key false now ttl).providerCalls = 1 ∧
    (resolveTranscript c (some t) key false now ttl).transcript = some t ∧
    (resolveTranscript c (some t) key false now ttl).cache.find?
        (fun e => decide (e.1 = key)) = some (key, ⟨t, now, ttl⟩) ∧
    (resolveTranscript c (some t) key false now ttl).cache.find?
        (fun e => decide (e.1 = key2)) = c.find? (fun e => decide (e.1 = key2)) := by
  have hget : cacheGet c key now = none := by
    unfold cacheGet
    rw [hfind]
    simp
    omega
  have e1 : resolveTranscript c (some t) key false now ttl
      = ⟨some t, cachePut c key t now ttl, 1⟩ := by
    unfold resolveTranscript
    simp [hget]
  refine ⟨hget, by simp [e1], by simp [e1], ?_, ?_⟩
  · simp only [e1]
    exact find?_cachePut_self c key t now ttl
  · simp only [e1]
    unfold cachePut
    rw [List.find?_cons_of_neg _ (by simp; exact fun hk => hne hk.symm)]
    exact find?_filter_ne c key key2 hne

/-- Witness for C7 at a single-entry cache whose entry has expired. -/
theorem ttl_expiry_refetch_witness :
    ([(("v", "en"), ⟨"old", 0, 5⟩)] : Cache).find? (fun e => decide (e.1 = ("v", "en")))
        = some (("v", "en"), ⟨"old", 0, 5⟩) ∧
    (5 : Nat) ≤ 10 - 0 ∧
    (("w", "en") : CacheKey) ≠ ("v", "en") ∧
    (cacheGet [(("v", "en"), ⟨"old", 0, 5⟩)] ("v", "en") 10 = none ∧
     (resolveTranscript [(("v", "en"), ⟨"old", 0, 5⟩)] (some "new") ("v", "en")
        false 10 60).providerCalls = 1 ∧
     (resolveTranscript [(("v", "en"), ⟨"old", 0, 5⟩)] (some "new") ("v", "en")
        false 10 60).transcript = some "new" ∧
     (resolveTranscript [(("v", "en"), ⟨"old", 0, 5⟩)] (some "new") ("v", "en")
        false 10 60).cache.find? (fun e => decide (e.1 = ("v", "en")))
       = some (("v", "en"), ⟨"new", 10, 60⟩) ∧
     (resolveTranscript [(("v", "en"), ⟨"old", 0, 5⟩)] (some "new") ("v", "en")
        false 10 60).cache.find? (fun e => decide (e.1 = ("w", "en")))
       = [(("v", "en"), ⟨"old", 0, 5⟩)].find? (fun e => decide (e.1 = ("w", "en")))) :=
  ⟨by decide, by decide, by decide,
   ttl_expiry_refetch [(("v", "en"), ⟨"old", 0, 5⟩)] ("v", "en") ("w", "en") "old"
     "new" 0 5 10 60 (by decide) (by decide) (by decide)⟩

/-! ## Claims about the frontend handlers -/

/-- C10: on a duplicate-free platform list, `handlePlatformToggle`'s updater removes
all occurrences of the toggled platform when present and appends it at the end
otherwise; the result is duplicate-free, the other platforms keep their relative
order, and toggling twice yields the same set of platforms. -/
theorem handlePlatformToggle_spec (prev : List String) (p q : String)
    (hnd : prev.Nodup) :
    (handlePlatformToggle p prev).Nodup ∧
    (p ∈ prev → handlePlatformToggle p prev = prev.filter (fun r => r ≠ p)) ∧
    (p ∉ prev → handlePlatformToggle p prev = prev ++ [p]) ∧
    (handlePlatformToggle p prev).filter (fun r => r ≠ p)
      = prev.filter (fun r => r ≠ p) ∧
    (q ∈ handlePlatformToggle p (handlePlatformToggle p prev) ↔ q ∈ prev) := by
  by_cases h : p ∈ prev
  · have hc : prev.contains p = true := by simp [h]
    have h1 : handlePlatformToggle p prev = prev.filter (fun r => r ≠ p) := by
      unfold handlePlatformToggle
      rw [if_pos hc]
    have hp1 : p ∉ prev.filter (fun r => r ≠ p) := by
      simp [List.mem_filter]
    have h2 : handlePlatformToggle p (prev.filter (fun r => r ≠ p))
        = prev.filter (fun r => r ≠ p) ++ [p] := by
      unfold handlePlatformToggle
      rw [if_neg (by simp [hp1])]
    refine ⟨?_, fun _ => h1, fun hn => absurd h hn, ?_, ?_⟩
    · rw [h1]; exact hnd.filter _
    · rw [h1, List.filter_eq_self]
      intro a ha
      exact (List.mem_filter.mp ha).2
    · rw [h1, h2]
      by_cases hq : q = p
      · subst hq
        simp [h]
      · simp [List.mem_append, List.mem_filter, hq]
  · have h1 : handlePlatformToggle p prev = prev ++ [p] := by
      unfold handlePlatformToggle
      rw [if_neg (by simp [h])]
    have hp1 : p ∈ prev ++ [p] := by simp
    have h2 : handlePlatformToggle p (prev ++ [p])
        = (prev ++ [p]).filter (fun r => r ≠ p) := by
      unfold handlePlatformToggle
      rw [if_pos (by simp [hp1])]
    have hself : prev.filter (fun r => r ≠ p) = prev := by
      rw [List.filter_eq_self]
      intro a ha
      simp only [ne_eq, decide_eq_true_eq]
      intro hap
      exact h (hap ▸ ha)
    have h3 : (prev ++ [p]).filter (fun r => r ≠ p) = prev := by
      rw [List.filter_append, hself]
      simp
    refine ⟨?_, fun hp => absurd hp h, fun _ => h1, ?_, ?_⟩
    · rw [h1]
      have hdisj : prev.Disjoint [p] := by
        intro a ha hap
        simp at hap
        exact h (hap ▸ ha)
      exact (List.nodup_append).mpr ⟨hnd, by simp, hdisj⟩
    · rw [h1, h3, hself]
    · rw [h1, h2, h3]

/-- Witness for C10 at prev = ["LinkedIn", "Instagram"], p = "Instagram",
q = "LinkedIn". -/
theorem handlePlatformToggle_spec_witness :
    (["LinkedIn", "Instagram"] : List String).Nodup ∧
    ((handlePlatformToggle "Instagram" ["LinkedIn", "Instagram"]).Nodup ∧
     ("Instagram" ∈ (["LinkedIn", "Instagram"] : List String) →
       handlePlatformToggle "Instagram" ["LinkedIn", "Instagram"]
         = (["LinkedIn", "Instagram"] : List String).filter (fun r => r ≠ "Instagram")) ∧
     ("Instagram" ∉ (["LinkedIn", "Instagram"] : List String) →
       handlePlatformToggle "Instagram" ["LinkedIn", "Instagram"]
         = ["LinkedIn", "Instagram"] ++ ["Instagram"]) ∧
     (handlePlatformToggle "Instagram" ["LinkedIn", "Instagram"]).filter
         (fun r => r ≠ "Instagram")
       = (["LinkedIn", "Instagram"] : List String).filter (fun r => r ≠ "Instagram") ∧
     ("LinkedIn" ∈ handlePlatformToggle "Instagram"
         (handlePlatformToggle "Instagram" ["LinkedIn", "Instagram"])
       ↔ "LinkedIn" ∈ (["LinkedIn", "Instagram"] : List String))) :=
  ⟨by decide,
   handlePlatformToggle_spec ["LinkedIn", "Instagram"] "Instagram" "LinkedIn" (by decide)⟩

/-- C8: a request with a whitespace-only (in particular empty) video id, or with an
empty platform selection, is rejected by `handleGenerate` with an immediate error: no
stream request is built, so no partial event stream is produced. -/
theorem handleGenerate_rejects (videoUrl : String) (selectedPlatforms : List String)
    (language : String)
    (h : (∀ c ∈ videoUrl.data, c.isWhitespace) ∨ selectedPlatforms = []) :
    ∃ m, handleGenerate videoUrl selectedPlatforms language = Except.error m := by
  unfold handleGenerate
  rcases h with hws | hpl
  · rw [if_pos (strTrim_of_whitespace videoUrl hws)]
    exact ⟨_, rfl⟩
  · by_cases htrim : strTrim videoUrl = ""
    · rw [if_pos htrim]
      exact ⟨_, rfl⟩
    · rw [if_neg htrim, if_pos hpl]
      exact ⟨_, rfl⟩

/-- Witness for C8 at a whitespace-only video url. -/
theorem handleGenerate_rejects_witness :
    ∃ m, handleGenerate "  " ["LinkedIn"] "en" = Except.error m :=
  handleGenerate_rejects "  " ["LinkedIn"] "en" (Or.inl (by decide))

/-- C9: an absent platforms parameter defaults to the ordered list
["LinkedIn", "Instagram"], an absent language defaults to "en" and an absent refresh
flag defaults to false; the frontend's initial selection state matches. -/
theorem request_defaults (v : String) :
    (parseRequest v none none none).platforms = ["LinkedIn", "Instagram"] ∧
    (parseRequest v none none none).language = "en" ∧
    (parseRequest v none none none).refresh = false ∧
    initialSelectedPlatforms = ["LinkedIn", "Instagram"] ∧
    initialLanguage = "en" :=
  ⟨rfl, rfl, rfl, rfl, rfl⟩

/-! ## Claims about the orchestrator's event stream -/

/-- C3: when no cached entry exists for the request's key and the provider fails, the
emitted sequence is exactly Status(starting) followed by a single Error, with no
Transcript, no Post and no Done event. -/
theorem fatal_transcript_failure (c : Cache)
    (gen : String → String → String → Option String) (req : GenerationRequest)
    (now ttl : Nat) (href : req.refresh = false)
    (hmiss : cacheGet c (req.video_id, req.language) now = none) :
    (orchestrate c none gen req now ttl).1
      = [StreamEvent.status "starting" none none,
         StreamEvent.error "Transcript unavailable"] ∧
    (orchestrate c none gen req now ttl).1.countP isTranscriptEvent = 0 ∧
    (orchestrate c none gen req now ttl).1.countP isPost = 0 ∧
    StreamEvent.done ∉ (orchestrate c none gen req now ttl).1 := by
  have e1 : resolveTranscript c none (req.video_id, req.language) req.refresh now ttl
      = ⟨none, c, 1⟩ := by
    rw [href]
    unfold resolveTranscript
    simp [hmiss]
  have he : (orchestrate c none gen req now ttl).1
      = [StreamEvent.status "starting" none none,
         StreamEvent.error "Transcript unavailable"] := by
    unfold orchestrate
    simp only [e1]
    rfl
  rw [he]
  exact ⟨rfl, by decide, by decide, by decide⟩

/-- Witness for C3 at an empty cache and a concrete request. -/
theorem fatal_transcript_failure_witness :
    (⟨"X", ["LinkedIn"], "en", false⟩ : GenerationRequest).refresh = false ∧
    cacheGet ([] : Cache) ("X", "en") 0 = none ∧
    ((orchestrate ([] : Cache) none (fun _ _ _ => some "p")
        ⟨"X", ["LinkedIn"], "en", false⟩ 0 60).1
      = [StreamEvent.status "starting" none none,
         StreamEvent.error "Transcript unavailable"] ∧
     (orchestrate ([] : Cache) none (fun _ _ _ => some "p")
        ⟨"X", ["LinkedIn"], "en", false⟩ 0 60).1.countP isTranscriptEvent = 0 ∧
     (orchestrate ([] : Cache) none (fun _ _ _ => some "p")
        ⟨"X", ["LinkedIn"], "en", false⟩ 0 60).1.countP isPost = 0 ∧
     StreamEvent.done ∉ (orchestrate ([] : Cache) none (fun _ _ _ => some "p")
        ⟨"X", ["LinkedIn"], "en", false⟩ 0 60).1) :=
  ⟨rfl, rfl,
   fatal_transcript_failure [] (fun _ _ _ => some "p") ⟨"X", ["LinkedIn"], "en", false⟩
     0 60 rfl rfl⟩

/-- C1: over platforms [A, B, C] where B's generation fails and A's and C's succeed,
the stream contains a Post for A, a Post for C, an Error scoped to B and a terminal
Done; the failure is non-fatal and events for C are still emitted after the Error. -/
theorem partial_failure_continues (t a cc vid lang A B C : String)
    (gen : String → String → String → Option String) (refresh : Bool)
    (hA : gen t A lang = some a) (hB : gen t B lang = none)
    (hC : gen t C lang = some cc) :
    runEvents (some t) gen ⟨vid, [A, B, C], lang, refresh⟩
      = [StreamEvent.status "starting" none none,
         StreamEvent.status "transcript_ready" none none,
         StreamEvent.transcript (transcriptPreview t) t.length,
         StreamEvent.status "generating" (some A) (some 0),
         StreamEvent.post A a,
         StreamEvent.status "generating" (some B) (some 1),
         StreamEvent.error ("Generation failed for platform " ++ B),
         StreamEvent.status "generating" (some C) (some 2),
         StreamEvent.post C cc,
         StreamEvent.status "done" none none,
         StreamEvent.done] ∧
    StreamEvent.post A a ∈ runEvents (some t) gen ⟨vid, [A, B, C], lang, refresh⟩ ∧
    StreamEvent.post C cc ∈ runEvents (some t) gen ⟨vid, [A, B, C], lang, refresh⟩ ∧
    StreamEvent.error ("Generation failed for platform " ++ B)
      ∈ runEvents (some t) gen ⟨vid, [A, B, C], lang, refresh⟩ ∧
    (runEvents (some t) gen ⟨vid, [A, B, C], lang, refresh⟩).getLast?
      = some StreamEvent.done ∧
    StreamEvent.post C cc
      ∈ (runEvents (some t) gen ⟨vid, [A, B, C], lang, refresh⟩).drop 7 := by
  have he : runEvents (some t) gen ⟨vid, [A, B, C], lang, refresh⟩
      = [StreamEvent.status "starting" none none,
         StreamEvent.status "transcript_ready" none none,
         StreamEvent.transcript (transcriptPreview t) t.length,
         StreamEvent.status "generating" (some A) (some 0),
         StreamEvent.post A a,
         StreamEvent.status "generating" (some B) (some 1),
         StreamEvent.error ("Generation failed for platform " ++ B),
         StreamEvent.status "generating" (some C) (some 2),
         StreamEvent.post C cc,
         StreamEvent.status "done" none none,
         StreamEvent.done] := by
    simp [runEvents, platformEvents, List.enum, List.enumFrom, hA, hB, hC]
  rw [he]
  refine ⟨rfl, by simp, by simp, by simp, by simp, by simp⟩

/-- Witness for C1 at a concrete transcript and generator that fails only on "B". -/
theorem partial_failure_continues_witness :
    ((fun _ p _ => if p = "B" then none else some ("post " ++ p)) :
        String → String → String → Option String) "tr" "A" "en" = some "post A" ∧
    ((fun _ p _ => if p = "B" then none else some ("post " ++ p)) :
        String → String → String → Option String) "tr" "B" "en" = none ∧
    ((fun _ p _ => if p = "B" then none else some ("post " ++ p)) :
        String → String → String → Option String) "tr" "C" "en" = some "post C" ∧
    (StreamEvent.post "A" "post A"
        ∈ runEvents (some "tr") (fun _ p _ => if p = "B" then none else some ("post " ++ p))
            ⟨"X", ["A", "B", "C"], "en", false⟩ ∧
      StreamEvent.post "C" "post C"
        ∈ runEvents (some "tr") (fun _ p _ => if p = "B" then none else some ("post " ++ p))
            ⟨"X", ["A", "B", "C"], "en", false⟩ ∧
      StreamEvent.error ("Generation failed for platform " ++ "B")
        ∈ runEvents (some "tr") (fun _ p _ => if p = "B" then none else some ("post " ++ p))
            ⟨"X", ["A", "B", "C"], "en", false⟩ ∧
      (runEvents (some "tr") (fun _ p _ => if p = "B" then none else some ("post " ++ p))
          ⟨"X", ["A", "B", "C"], "en", false⟩).getLast? = some StreamEvent.done ∧
      StreamEvent.post "C" "post C"
        ∈ (runEvents (some "tr") (fun _ p _ => if p = "B" then none else some ("post " ++ p))
            ⟨"X", ["A", "B", "C"], "en", false⟩).drop 7) := by
  have h := partial_failure_continues "tr" "post A" "post C" "X" "en" "A" "B" "C"
    (fun _ p _ => if p = "B" then none else some ("post " ++ p)) false
    (by decide) (by decide) (by decide)
  exact ⟨by decide, by decide, by decide, h.2.1, h.2.2.1, h.2.2.2.1, h.2.2.2.2.1,
    h.2.2.2.2.2⟩

/-- C4: the Transcript event emitted for a transcript t is unique and carries
preview = the first 200 characters of t (the whole of t when t is shorter than 200
characters) and length = the exact character count of t. -/
theorem transcript_preview_correct (t : String)
    (gen : String → String → String → Option String) (req : GenerationRequest) :
    (runEvents (some t) gen req).filter isTranscriptEvent
      = [StreamEvent.transcript (transcriptPreview t) t.length] ∧
    (transcriptPreview t).data = t.data.take 200 ∧
    t.length = t.data.length ∧
    (t.length ≤ 200 → transcriptPreview t = t) ∧
    (transcriptPreview t).length = min 200 t.length := by
  refine ⟨?_, rfl, rfl, ?_, ?_⟩
  · have hpe := platformEvents_filter_transcript
      (fun p => gen t p req.language) req.platforms.enum
    simp [runEvents, List.filter_append, hpe, isTranscriptEvent]
  · intro h
    unfold transcriptPreview
    rw [List.take_of_length_le h]
    cases t
    rfl
  · exact List.length_take 200 t.data

/-- Witness for C4 at a transcript shorter than 200 characters. -/
theorem transcript_preview_correct_witness :
    ((runEvents (some "hello") (fun _ _ _ => some "p")
        ⟨"X", ["LinkedIn"], "en", false⟩).filter isTranscriptEvent
      = [StreamEvent.transcript (transcriptPreview "hello") "hello".length] ∧
     (transcriptPreview "hello").data = "hello".data.take 200 ∧
     "hello".length = "hello".data.length ∧
     ("hello".length ≤ 200 → transcriptPreview "hello" = "hello") ∧
     (transcriptPreview "hello").length = min 200 "hello".length) ∧
    transcriptPreview "hello" = "hello" :=
  ⟨transcript_preview_correct "hello" (fun _ _ _ => some "p")
      ⟨"X", ["LinkedIn"], "en", false⟩,
   (transcript_preview_correct "hello" (fun _ _ _ => some "p")
      ⟨"X", ["LinkedIn"], "en", false⟩).2.2.2.1 (by decide)⟩

/-- C2: in every run the Transcript event is emitted at most once and strictly before
every Post event, and Done only ever occupies the last position; in the fully
successful sequential case the events are exactly Status(starting),
Status(transcript_ready), Transcript, then per platform in request order
Status(generating, platform, index) followed by its Post, then Status(done), Done. -/
theorem event_ordering (tr : Option String)
    (gen : String → String → String → Option String) (req : GenerationRequest)
    (t : String) (cf : String → String) :
    (runEvents tr gen req).countP isTranscriptEvent ≤ 1 ∧
    transcriptBeforePosts (runEvents tr gen req) ∧
    doneOnlyLast (runEvents tr gen req) ∧
    (tr = some t → (∀ p ∈ req.platforms, gen t p req.language = some (cf p)) →
      runEvents tr gen req
        = StreamEvent.status "starting" none none ::
          StreamEvent.status "transcript_ready" none none ::
          StreamEvent.transcript (transcriptPreview t) t.length ::
          (req.platforms.enum.flatMap (fun ip =>
            [StreamEvent.status "generating" (some ip.2) (some ip.1),
             StreamEvent.post ip.2 (cf ip.2)]) ++
           [StreamEvent.status "done" none none, StreamEvent.done])) := by
  cases tr with
  | none =>
    have he : runEvents none gen req
        = [StreamEvent.status "starting" none none,
           StreamEvent.error "Transcript unavailable"] := rfl
    refine ⟨?_, ⟨2, ?_, ?_⟩, ?_, fun h => by simp at h⟩
    · rw [he]; decide
    · rw [he]; decide
    · rw [he]; decide
    · unfold doneOnlyLast
      rw [he]
      decide
  | some t2 =>
    have he : runEvents (some t2) gen req
        = StreamEvent.status "starting" none none ::
          StreamEvent.status "transcript_ready" none none ::
          StreamEvent.transcript (transcriptPreview t2) t2.length ::
          (platformEvents (fun p => gen t2 p req.language) req.platforms.enum ++
            [StreamEvent.status "done" none none, StreamEvent.done]) := rfl
    have hcount := platformEvents_countP_transcript
      (fun p => gen t2 p req.language) req.platforms.enum
    have hall := platformEvents_all_not_transcript
      (fun p => gen t2 p req.language) req.platforms.enum
    refine ⟨?_, ⟨3, ?_, ?_⟩, ?_, ?_⟩
    · rw [he]
      simp [List.countP_cons, List.countP_append, isTranscriptEvent, hcount]
    · rw [he]
      simp [isPost]
    · rw [he]
      simp only [List.drop_succ_cons, List.drop_zero, List.all_append, hall,
        Bool.true_and]
      decide
    · have hfront : runEvents (some t2) gen req
          = (StreamEvent.status "starting" none none ::
             StreamEvent.status "transcript_ready" none none ::
             StreamEvent.transcript (transcriptPreview t2) t2.length ::
             (platformEvents (fun p => gen t2 p req.language) req.platforms.enum ++
               [StreamEvent.status "done" none none])) ++ [StreamEvent.done] := by
        rw [he]
        simp
      intro e he2
      rw [hfront, List.dropLast_concat] at he2
      simp only [List.mem_cons, List.mem_append, List.not_mem_nil, or_false] at he2
      rcases he2 with rfl | rfl | rfl | hpe | rfl
      · simp
      · simp
      · simp
      · exact (platformEvents_shape _ _ e hpe).2
      · simp
    · intro htr hgen
      have ht2 : t2 = t := by
        injection htr
      subst ht2
      rw [he]
      have h2 : ∀ ip ∈ req.platforms.enum,
          (fun p => gen t2 p req.language) ip.2 = some (cf ip.2) := by
        intro ip hip
        exact hgen ip.2 (snd_mem_of_mem_enum req.platforms ip hip)
      rw [platformEvents_all_success (fun p => gen t2 p req.language) cf
        req.platforms.enum h2]

/-- Witness for C2 at a fully successful concrete run over
["LinkedIn", "Instagram"]. -/
theorem event_ordering_witness :
    (runEvents (some "hi") (fun _ p _ => some ("post " ++ p))
        ⟨"X", ["LinkedIn", "Instagram"], "en", false⟩).countP isTranscriptEvent ≤ 1 ∧
    transcriptBeforePosts (runEvents (some "hi") (fun _ p _ => some ("post " ++ p))
        ⟨"X", ["LinkedIn", "Instagram"], "en", false⟩) ∧
    doneOnlyLast (runEvents (some "hi") (fun _ p _ => some ("post " ++ p))
        ⟨"X", ["LinkedIn", "Instagram"], "en", false⟩) ∧
    runEvents (some "hi") (fun _ p _ => some ("post " ++ p))
        ⟨"X", ["LinkedIn", "Instagram"], "en", false⟩
      = StreamEvent.status "starting" none none ::
        StreamEvent.status "transcript_ready" none none ::
        StreamEvent.transcript (transcriptPreview "hi") "hi".length ::
        ((["LinkedIn", "Instagram"] : List String).enum.flatMap (fun ip =>
          [StreamEvent.status "generating" (some ip.2) (some ip.1),
           StreamEvent.post ip.2 ("post " ++ ip.2)]) ++
         [StreamEvent.status "done" none none, StreamEvent.done]) := by
  have h := event_ordering (some "hi") (fun _ p _ => some ("post " ++ p))
    ⟨"X", ["LinkedIn", "Instagram"], "en", false⟩ "hi" (fun p => "post " ++ p)
  exact ⟨h.1, h.2.1, h.2.2.1, h.2.2.2 rfl (by decide)⟩

end SocialMediaAgent
